import Mathlib

/-!
Shallow embedding of the shellcaster core: the sqlite persistence layer
(src/db.rs) and the coordinating controller (src/main_controller.rs).

Conventions of the embedding:
* `i64` database identifiers, Unix timestamps and durations are `Int`
  (no arithmetic in the embedded code can overflow 64 bits).
* `DateTime<Utc>` values are carried as their Unix timestamps (`Int`);
  `db.rs` itself only ever stores and compares `.timestamp()` values.
* Fallible sqlite calls are modelled by an explicit success/failure
  parameter at the call sites whose behaviour the controller branches on;
  the pure content of each statement is modelled directly.
* The sqlite table contents are lists of rows kept in insertion order;
  `ORDER BY pubdate DESC` is a stable sort on that list (counterexamples
  below only use rows with pairwise distinct publish dates, so the
  unspecified tie order of sqlite never matters).
* The in-memory `LockVec` store of `types.rs` (not part of the sources) is
  modelled from the spec, section 4.1: `replace` swaps one entity in place,
  `clone` returns a copy, `replace_all` swaps a whole episode collection.
-/

namespace Shellcaster

/-- Episode data parsed from a feed, before a database id is assigned
(`EpisodeNoId`); `pubdate` is the Unix timestamp of the publish date. -/
structure EpisodeNoId where
  title : String
  url : String
  description : Option String
  pubdate : Option Int
  duration : Option Int
  deriving DecidableEq

/-- An in-memory episode as produced by `Database::get_episodes`. -/
structure Episode where
  id : Int
  podId : Int
  title : String
  url : String
  description : Option String
  pubdate : Option Int
  duration : Option Int
  path : Option String
  played : Bool
  deriving DecidableEq

/-- A row of the `episodes` table. -/
structure EpRow where
  id : Int
  podId : Int
  title : String
  url : String
  description : Option String
  pubdate : Option Int
  duration : Option Int
  played : Bool
  hidden : Bool
  deriving DecidableEq

/-- A row of the `files` table. -/
structure FileRow where
  episodeId : Int
  path : String
  deriving DecidableEq

/-- A row of the `podcasts` table (only the fields the claims touch). -/
structure PodRow where
  id : Int
  title : String
  url : String
  deriving DecidableEq

/-- The database state: table contents in insertion (rowid) order plus the
next rowids to be handed out by `last_insert_rowid`. -/
structure Db where
  podcasts : List PodRow
  episodes : List EpRow
  files : List FileRow
  nextPodId : Int
  nextEpId : Int
  deriving DecidableEq

/-- `NewEpisode` of `types.rs`: context for a freshly inserted episode. -/
structure NewEpisode where
  id : Int
  podId : Int
  title : String
  podTitle : String
  selected : Bool
  deriving DecidableEq

/-- `SyncResult` of `db.rs`. -/
structure SyncResult where
  added : List NewEpisode
  updated : List Int
  deriving DecidableEq

/-- Podcast data parsed from a feed, before a database id is assigned. -/
structure PodcastNoId where
  title : String
  url : String
  episodes : List EpisodeNoId
  deriving DecidableEq

/-- Strict comparison of publish dates as sqlite orders them: `NULL` is
smaller than every timestamp, so `ORDER BY pubdate DESC` puts `NULL` last. -/
def pd_gt : Option Int → Option Int → Bool
  | some x, some y => decide (y < x)
  | some _, none => true
  | none, _ => false

/-- The relation realised by `ORDER BY pubdate DESC`: row `a` may precede
row `b` when `b`'s publish date is not strictly greater. -/
def rowGe (a b : EpRow) : Prop := pd_gt b.pubdate a.pubdate = false

theorem pd_gt_false_total (x y : Option Int) :
    pd_gt y x = false ∨ pd_gt x y = false := by
  cases x <;> cases y <;> simp [pd_gt] <;> omega

theorem pd_gt_false_trans {x y z : Option Int} (h1 : pd_gt y x = false)
    (h2 : pd_gt z y = false) : pd_gt z x = false := by
  cases x <;> cases y <;> cases z <;> simp [pd_gt] at * <;> omega

instance : DecidableRel rowGe := fun a b => by
  unfold rowGe
  infer_instance

instance : IsTotal EpRow rowGe where
  total a b := pd_gt_false_total a.pubdate b.pubdate

instance : IsTrans EpRow rowGe where
  trans _ _ _ hab hbc := pd_gt_false_trans hab hbc

/-- `ORDER BY pubdate DESC` on a list of episode rows. -/
def sort_pubdate_desc (l : List EpRow) : List EpRow :=
  List.insertionSort rowGe l

/-- Builds the in-memory `Episode` from an `episodes` row; `path` comes
from the `LEFT JOIN files` in `get_episodes`. -/
def row_to_episode (db : Db) (r : EpRow) : Episode :=
  { id := r.id, podId := r.podId, title := r.title, url := r.url,
    description := r.description, pubdate := r.pubdate, duration := r.duration,
    path := (db.files.find? (fun f => f.episodeId == r.id)).map (fun f => f.path),
    played := r.played }

/-- `Database::get_episodes`: episodes of one podcast, optionally
excluding hidden ones, newest publish date first. -/
def get_episodes (db : Db) (podId : Int) (includeHidden : Bool) : List Episode :=
  (sort_pubdate_desc (db.episodes.filter
      (fun r => r.podId == podId && (includeHidden || !r.hidden)))).map
    (row_to_episode db)

/-- The `episodes` row created for a fetched episode: fresh rowid,
`played = hidden = false`. -/
def new_row (podId rowid : Int) (e : EpisodeNoId) : EpRow :=
  { id := rowid, podId := podId, title := e.title, url := e.url,
    description := e.description, pubdate := e.pubdate,
    duration := e.duration, played := false, hidden := false }

/-- `Database::insert_episode`: appends a row with `played = hidden = false`
and returns `last_insert_rowid`. -/
def insert_episode (db : Db) (podId : Int) (e : EpisodeNoId) : Int × Db :=
  (db.nextEpId,
    { db with
      episodes := db.episodes ++ [new_row podId db.nextEpId e],
      nextEpId := db.nextEpId + 1 })

/-- `Database::insert_podcast`: inserts the podcast row, then inserts the
fetched episodes iterating the fetched list in reverse (`iter().rev()`).
(The source retrieves the podcast id back by its unique URL; for the
never-before-seen podcast the claims concern, that is the fresh rowid.) -/
def insert_podcast (db : Db) (p : PodcastNoId) : Db × SyncResult :=
  let pid := db.nextPodId
  let db1 : Db :=
    { db with
      podcasts := db.podcasts ++ [{ id := pid, title := p.title, url := p.url }],
      nextPodId := pid + 1 }
  let r := p.episodes.reverse.foldl
    (fun (acc : Db × List NewEpisode) e =>
      let ins := insert_episode acc.1 pid e
      (ins.2, acc.2 ++ [{ id := ins.1, podId := pid, title := e.title,
                          podTitle := p.title, selected := false }]))
    (db1, [])
  (r.1, { added := r.2, updated := [] })

/-- The match score of `update_episodes`: `+1` for an equal title, `+1` for
an equal media URL, `+1` when both publish dates are present and equal. -/
def match_score (ne : EpisodeNoId) (oldEp : Episode) : Int :=
  (if ne.title = oldEp.title then 1 else 0) +
    (if ne.url = oldEp.url then 1 else 0) +
    (match ne.pubdate, oldEp.pubdate with
     | some pd, some oldPd => if pd = oldPd then 1 else 0
     | _, _ => 0)

/-- The `pd_match` flag of `update_episodes`: set exactly when both the
fetched and the stored episode carry a publish date (their equality is not
part of this flag). -/
def pd_both (ne : EpisodeNoId) (oldEp : Episode) : Bool :=
  ne.pubdate.isSome && oldEp.pubdate.isSome

/-- The update condition of `update_episodes` for a matched pair: negation
of (equal title, URL, description, duration, and `pd_match`). -/
def needs_update (ne : EpisodeNoId) (oldEp : Episode) : Bool :=
  !(ne.title == oldEp.title && ne.url == oldEp.url &&
    ne.description == oldEp.description && ne.duration == oldEp.duration &&
    pd_both ne oldEp)

/-- The inner loop of `update_episodes`: scan the given list of stored
episodes and return id and update flag of the first one with score `>= 2`. -/
def scan_match (ne : EpisodeNoId) : List Episode → Option (Int × Bool)
  | [] => none
  | oldEp :: rest =>
    if 2 ≤ match_score ne oldEp then some (oldEp.id, needs_update ne oldEp)
    else scan_match ne rest

/-- The `UPDATE episodes SET title, url, description, pubdate, duration`
statement of `update_episodes`. -/
def db_update_episode (db : Db) (id : Int) (ne : EpisodeNoId) : Db :=
  { db with
    episodes := db.episodes.map (fun r =>
      if r.id == id then
        { r with title := ne.title, url := ne.url, description := ne.description,
                 pubdate := ne.pubdate, duration := ne.duration }
      else r) }

/-- One iteration of the `update_episodes` loop over a fetched episode:
`scanList` is the snapshot of the stored episodes taken once before the
loop (already in scan order, i.e. reversed). -/
def merge_step (podId : Int) (podTitle : String) (scanList : List Episode)
    (acc : Db × List NewEpisode × List Int) (ne : EpisodeNoId) :
    Db × List NewEpisode × List Int :=
  match scan_match ne scanList with
  | some idUpd =>
    if idUpd.2 then
      (db_update_episode acc.1 idUpd.1 ne, acc.2.1, acc.2.2 ++ [idUpd.1])
    else acc
  | none =>
    let ins := insert_episode acc.1 podId ne
    (ins.2,
      acc.2.1 ++ [{ id := ins.1, podId := podId, title := ne.title,
                    podTitle := podTitle, selected := false }],
      acc.2.2)

/-- `Database::update_episodes`, the Sync Merger: reads the stored episodes
once (hidden included, newest first), then walks the fetched list in
reverse (`iter().rev()`), scanning the stored snapshot in reverse as well. -/
def update_episodes (db : Db) (podId : Int) (podTitle : String)
    (eps : List EpisodeNoId) : Db × SyncResult :=
  let old := get_episodes db podId true
  let r := eps.reverse.foldl (merge_step podId podTitle old.reverse) (db, [], [])
  (r.1, { added := r.2.1, updated := r.2.2 })

/-- `Database::update_podcast`: overwrite the podcast row's metadata, then
run the Sync Merger on its episodes. -/
def update_podcast (db : Db) (pid : Int) (pod : PodcastNoId) : Db × SyncResult :=
  let db1 : Db :=
    { db with
      podcasts := db.podcasts.map (fun p =>
        if p.id == pid then { p with title := pod.title, url := pod.url } else p) }
  update_episodes db1 pid pod.title pod.episodes

/-- `Database::set_played_status`. -/
def set_played_status (db : Db) (episodeId : Int) (played : Bool) : Db :=
  { db with
    episodes := db.episodes.map (fun r =>
      if r.id == episodeId then { r with played := played } else r) }

/-- `Database::hide_episode`. -/
def hide_episode (db : Db) (episodeId : Int) (hide : Bool) : Db :=
  { db with
    episodes := db.episodes.map (fun r =>
      if r.id == episodeId then { r with hidden := hide } else r) }

/-- `Database::insert_file`. -/
def insert_file (db : Db) (episodeId : Int) (path : String) : Db :=
  { db with files := db.files ++ [{ episodeId := episodeId, path := path }] }

/-- `Database::remove_file` (single episode). -/
def remove_file (db : Db) (episodeId : Int) : Db :=
  { db with files := db.files.filter (fun f => decide (f.episodeId ≠ episodeId)) }

/-- Decimal digits of a bound text, accumulated left to right. -/
def parse_digits_from (acc : Nat) : List Char → Option Nat
  | [] => some acc
  | c :: cs => if c.isDigit then parse_digits_from (10 * acc + (c.toNat - 48)) cs else none

/-- Sqlite INTEGER affinity applied to a bound text operand: the
comparison with an INTEGER column uses the numeric value exactly when the
whole string is an integer literal, otherwise the text equals no integer. -/
def sqlite_text_to_int (s : String) : Option Int :=
  match s.data with
  | [] => none
  | c :: cs =>
    if c = '-' then
      match cs with
      | [] => none
      | _ => (parse_digits_from 0 cs).map (fun n => -(n : Int))
    else if c.isDigit then (parse_digits_from 0 (c :: cs)).map (fun n => (n : Int))
    else none

/-- `Database::remove_files`: joins the episode ids into one comma-separated
string and binds that single string to the one `?` placeholder of
`DELETE FROM files WHERE episode_id = (?)`. Sqlite compares the INTEGER
column with the bound text through numeric affinity: the comparison matches
if and only if the whole string converts to an integer, so only a
one-element batch ever deletes anything. -/
def remove_files (db : Db) (episodeIds : List Int) : Db :=
  let bound := String.intercalate ", " (episodeIds.map toString)
  match sqlite_text_to_int bound with
  | some n => { db with files := db.files.filter (fun f => decide (f.episodeId ≠ n)) }
  | none => db

/-! ### The controller (src/main_controller.rs)

Each handler is a pure function from the application state to the new
state plus its observable outputs: the notifications sent to the UI and
the jobs dispatched to the worker pool. Sqlite calls whose failure the
handler branches on are modelled by an explicit `dbFail` flag at that call
site; sqlite calls that cannot fail in the model are total. Sites where
the source calls `.unwrap()` on a store lookup (a panic on an absent id)
are modelled as doing nothing; the theorems below always work under
hypotheses making those lookups succeed. -/

/-- The user-visible notifications the modelled handlers can emit, one
constructor per `notif_to_ui` call site. -/
inductive Notif where
  | feedError (title : Option String)
  | syncDbError (title : String)
  | addDbError
  | syncComplete (added updated : Nat)
  | addComplete (added : Nat)
  | couldNotCreateDir (podTitle : String)
  | fileDbError (path : String)
  | downloadsComplete
  | removeFileDbError (title : String)
  | deleted (title : String)
  | deleteError (title : String)
  | filesDeleted
  | filesDeleteError
  | couldNotRemovePodcast
  deriving DecidableEq

/-- The aggregate computed when the sync counter returns to zero: the
totals notification plus the new-episode list handed to the auto-download
policy (popup or immediate downloads). -/
structure SyncAgg where
  added : Nat
  updated : Nat
  newEps : List NewEpisode
  deriving DecidableEq

/-- Modelled from the spec: an in-memory podcast held in the Shared
Ordered Store (`LockVec` in the missing `types.rs`), with its episode
sub-collection. -/
structure MemPodcast where
  id : Int
  title : String
  episodes : List Episode
  deriving DecidableEq

/-- Relevant episode data carried by a download job (`EpData`). -/
structure EpData where
  id : Int
  podId : Int
  title : String
  url : String
  pubdate : Option Int
  filePath : Option String
  deriving DecidableEq

/-- The controller-owned application state: database, in-memory store,
local filesystem (as the set of existing file paths), sync counter and
tracker, and the download tracking set. -/
structure AppState where
  db : Db
  mem : List MemPodcast
  fs : List String
  syncCounter : Nat
  syncTracker : List SyncResult
  downloadTracker : Finset Int
  deriving DecidableEq

/-- Modelled from the spec: `get_podcasts` rebuilt into the in-memory
store; each podcast carries its non-hidden episodes, newest first. (The
display sorting of the podcast list itself is irrelevant to every claim
and is left as stored order.) -/
def mem_from_db (db : Db) : List MemPodcast :=
  db.podcasts.map (fun p =>
    { id := p.id, title := p.title, episodes := get_episodes db p.id false })

/-- Modelled from the spec: `LockVec::replace` of one episode inside one
podcast of the store, applied as a field update `f`. -/
def mem_replace_episode (mem : List MemPodcast) (podId epId : Int)
    (f : Episode → Episode) : List MemPodcast :=
  mem.map (fun p =>
    if p.id == podId then
      { p with episodes := p.episodes.map (fun e => if e.id == epId then f e else e) }
    else p)

/-- The job descriptor `MainController::sync` snapshots for each targeted
podcast before dispatching: `PodcastFeed::new(Some(pod.id), pod.url,
Some(pod.title))` — a dispatched sync job always carries the podcast's
id, feed URL, and title. -/
structure SyncFeed where
  podId : Int
  url : String
  title : String
  deriving DecidableEq

/-- `MainController::sync`: one counter increment per dispatched feed job;
the dispatched jobs (the snapshotted descriptors) are returned. -/
def sync_dispatch (st : AppState) (feeds : List SyncFeed) :
    AppState × List SyncFeed :=
  (feeds.foldl (fun s _ => { s with syncCounter := s.syncCounter + 1 }) st, feeds)

/-- The `FeedMsg::Error` arm of the message loop: the counter is
decremented only when the failed feed knew its title. (`sync_counter` is a
`usize`; the decrement can only run with a positive counter, so `Nat`
subtraction is faithful.) -/
def feed_error (st : AppState) (title : Option String) : AppState × List Notif :=
  match title with
  | some t => ({ st with syncCounter := st.syncCounter - 1 }, [Notif.feedError (some t)])
  | none => (st, [Notif.feedError none])

/-- The totals aggregation run when the sync counter returns to zero. -/
def aggregate_tracker (tracker : List SyncResult) : SyncAgg :=
  { added := (tracker.map (fun r => r.added.length)).sum,
    updated := (tracker.map (fun r => r.updated.length)).sum,
    newEps := tracker.foldl (fun a r => a ++ r.added) [] }

/-- The output of one `add_or_sync_data` call: new state, notifications,
and the batch aggregate when this completion finished the batch. -/
structure SyncStepOut where
  st : AppState
  notifs : List Notif
  agg : Option SyncAgg
  deriving DecidableEq

/-- `MainController::add_or_sync_data`: on a database failure only a
notification is emitted (in particular the sync counter is untouched); on
success the store is refreshed, and for a sync completion the result is
pushed, the counter decremented, and the batch aggregate produced when it
reaches zero. -/
def add_or_sync_data (st : AppState) (pod : PodcastNoId) (podId : Option Int)
    (dbFail : Bool) : SyncStepOut :=
  match podId with
  | some pid =>
    if dbFail then { st := st, notifs := [Notif.syncDbError pod.title], agg := none }
    else
      let r := update_podcast st.db pid pod
      let tracker1 := st.syncTracker ++ [r.2]
      let counter1 := st.syncCounter - 1
      let st1 : AppState :=
        { st with db := r.1, mem := mem_from_db r.1,
                  syncTracker := tracker1, syncCounter := counter1 }
      if counter1 = 0 then
        let a := aggregate_tracker tracker1
        { st := { st1 with syncTracker := [] },
          notifs := [Notif.syncComplete a.added a.updated], agg := some a }
      else { st := st1, notifs := [], agg := none }
  | none =>
    if dbFail then { st := st, notifs := [Notif.addDbError], agg := none }
    else
      let r := insert_podcast st.db pod
      { st := { st with db := r.1, mem := mem_from_db r.1 },
        notifs := [Notif.addComplete r.2.added.length], agg := none }

/-- One feed-check completion folded into the accumulated batch run. -/
def sync_batch_step (acc : AppState × List Notif × List SyncAgg)
    (j : PodcastNoId × Int × Bool) : AppState × List Notif × List SyncAgg :=
  let o := add_or_sync_data acc.1 j.1 (some j.2.1) j.2.2
  (o.st, acc.2.1 ++ o.notifs, acc.2.2 ++ o.agg.toList)

/-- Folds a batch of feed-check completions (`(pod, pod_id, dbFail)`)
through `add_or_sync_data`, accumulating notifications and aggregates. -/
def run_sync_batch (st : AppState) (jobs : List (PodcastNoId × Int × Bool)) :
    AppState × List Notif × List SyncAgg :=
  jobs.foldl sync_batch_step (st, [], [])

/-- `MainController::mark_played`: clone the episode, flip the flag, issue
the persistence call with `let _ = ...` (its result is discarded), then
write the clone back; no notification is emitted on either path. -/
def mark_played (st : AppState) (podId epId : Int) (played : Bool)
    (dbFail : Bool) : AppState × List Notif :=
  ({ st with
      db := if dbFail then st.db else set_played_status st.db epId played,
      mem := mem_replace_episode st.mem podId epId (fun e => { e with played := played }) },
    [])

/-- Projection of an episode to the data a download job needs. -/
def ep_to_data (e : Episode) : EpData :=
  { id := e.id, podId := e.podId, title := e.title, url := e.url,
    pubdate := e.pubdate, filePath := none }

/-- The candidate set of `MainController::download`: the one targeted
episode if it lacks a local path, or all episodes lacking one. -/
def download_candidates (p : MemPodcast) : Option Int → List EpData
  | some i =>
    match p.episodes.find? (fun e => e.id == i) with
    | some e => if e.path.isNone then [ep_to_data e] else []
    | none => []
  | none =>
    p.episodes.filterMap (fun e => if e.path.isNone then some (ep_to_data e) else none)

/-- Adds the id of every listed episode to the tracking set. -/
def tracker_insert_all (t : Finset Int) (ds : List EpData) : Finset Int :=
  ds.foldl (fun s d => insert d.id s) t

/-- `MainController::download`: compute the candidates, drop those already
in the download tracking set, and if any remain and the podcast directory
can be created, add their ids to the set and dispatch them. -/
def download_cmd (st : AppState) (podId : Int) (epId : Option Int)
    (dirOk : Bool) : AppState × List EpData × List Notif :=
  match st.mem.find? (fun p => p.id == podId) with
  | none => (st, [], [])
  | some p =>
    let cand := (download_candidates p epId).filter
      (fun d => decide (d.id ∉ st.downloadTracker))
    if cand.isEmpty then (st, [], [])
    else if dirOk then
      ({ st with downloadTracker := tracker_insert_all st.downloadTracker cand },
        cand, [])
    else (st, [], [Notif.couldNotCreateDir p.title])

/-- `MainController::download_complete`: a failing `insert_file` emits a
notification and returns before the in-memory writeback and before the
tracking-set removal; on success the path is written back, the id removed,
and the aggregate notification emitted when the set became empty. -/
def download_complete (st : AppState) (d : EpData) (dbFail : Bool) :
    AppState × List Notif :=
  match d.filePath with
  | none => (st, [])
  | some p =>
    if dbFail then (st, [Notif.fileDbError p])
    else
      let tr1 := st.downloadTracker.erase d.id
      ({ st with db := insert_file st.db d.id p,
                 mem := mem_replace_episode st.mem d.podId d.id
                   (fun e => { e with path := some p }),
                 downloadTracker := tr1 },
        if tr1 = ∅ then [Notif.downloadsComplete] else [])

/-- `MainController::delete_file` (single episode): filesystem removal
first; only on success the database file record is removed and the
in-memory path cleared; a filesystem failure emits an error notification
and changes nothing. (The source also notifies on a `remove_file`
database error; that branch is unreachable here because the modelled
statement is total, and no claim depends on it.) -/
def delete_file (st : AppState) (podId epId : Int) : AppState × List Notif :=
  match st.mem.find? (fun p => p.id == podId) with
  | none => (st, [])
  | some p =>
    match p.episodes.find? (fun e => e.id == epId) with
    | none => (st, [])
    | some e =>
      match e.path with
      | none => (st, [])
      | some pa =>
        if pa ∈ st.fs then
          ({ st with db := remove_file st.db e.id,
                     fs := st.fs.filter (fun q => decide (q ≠ pa)),
                     mem := mem_replace_episode st.mem podId epId
                       (fun ep => { ep with path := none }) },
            [Notif.deleted e.title])
        else (st, [Notif.deleteError e.title])

/-- The per-episode loop of `MainController::delete_files`: walks the
episode collection, deletes each downloaded file from the filesystem,
collects the ids of the successful deletions, clears their in-memory
paths, and records whether every deletion succeeded. -/
def delete_files_loop (fs : List String) :
    List Episode → List String × List Episode × List Int × Bool
  | [] => (fs, [], [], true)
  | e :: rest =>
    match e.path with
    | none =>
      let r := delete_files_loop fs rest
      (r.1, e :: r.2.1, r.2.2)
    | some pa =>
      if pa ∈ fs then
        let r := delete_files_loop (fs.filter (fun q => decide (q ≠ pa))) rest
        (r.1, { e with path := none } :: r.2.1, e.id :: r.2.2.1, r.2.2.2)
      else
        let r := delete_files_loop fs rest
        (r.1, e :: r.2.1, r.2.2.1, false)

/-- `MainController::delete_files` (all downloaded files of a podcast):
after the per-episode filesystem deletions, one `remove_files` call is
issued for the collected ids, and a single aggregate notification reports
success or failure. -/
def delete_files (st : AppState) (podId : Int) : AppState × List Notif :=
  match st.mem.find? (fun p => p.id == podId) with
  | none => (st, [])
  | some p =>
    let r := delete_files_loop st.fs p.episodes
    let db1 := remove_files st.db r.2.2.1
    ({ st with db := db1, fs := r.1,
               mem := st.mem.map (fun q =>
                 if q.id == podId then { q with episodes := r.2.1 } else q) },
      [if r.2.2.2 then Notif.filesDeleted else Notif.filesDeleteError])

/-- `MainController::remove_episode`: optional file deletion first, then
the episode is hidden in the database regardless of that outcome
(`let _ = self.db.hide_episode(ep_id, true)`), and the in-memory episode
list is refreshed from the non-hidden stored episodes. -/
def remove_episode (st : AppState) (podId epId : Int) (deleteFiles : Bool) :
    AppState × List Notif :=
  let r := if deleteFiles then delete_file st podId epId else (st, [])
  let db1 := hide_episode r.1.db epId true
  ({ r.1 with db := db1,
              mem := r.1.mem.map (fun p =>
                if p.id == podId then { p with episodes := get_episodes db1 podId false }
                else p) },
    r.2)

/-- An event of the download subsystem: a download command or a worker
completion message. -/
inductive DlEvent where
  | cmd (podId : Int) (epId : Option Int) (dirOk : Bool)
  | fin (d : EpData) (dbFail : Bool)
  deriving DecidableEq

/-- One controller step of the download subsystem, returning the new state
and the episode jobs dispatched by that step. -/
def dl_step (st : AppState) : DlEvent → AppState × List EpData
  | DlEvent.cmd podId epId dirOk =>
    let r := download_cmd st podId epId dirOk
    (r.1, r.2.1)
  | DlEvent.fin d dbFail => ((download_complete st d dbFail).1, [])

/-- Runs a sequence of download-subsystem events. -/
def dl_run (st : AppState) : List DlEvent → AppState
  | [] => st
  | e :: rest => dl_run (dl_step st e).1 rest

/-- The only event shape that removes `id` from the download tracking set:
a completion for `id` whose persistence write succeeded. -/
def removes_id (e : DlEvent) (id : Int) : Prop :=
  ∃ d p, e = DlEvent.fin d false ∧ d.id = id ∧ d.filePath = some p

instance (e : DlEvent) (id : Int) : Decidable (removes_id e id) := by
  unfold removes_id
  cases e with
  | cmd podId epId dirOk =>
    exact Decidable.isFalse (by rintro ⟨d, p, h, -, -⟩; exact DlEvent.noConfusion h)
  | fin d b =>
    cases b with
    | true => exact Decidable.isFalse (by rintro ⟨d2, p, h, -, -⟩; injection h with h1 h2; exact Bool.noConfusion h2)
    | false =>
      cases hp : d.filePath with
      | none =>
        exact Decidable.isFalse (by
          rintro ⟨d2, p, h, -, hfp⟩
          injection h with h1 h2
          subst h1
          rw [hp] at hfp
          exact Option.noConfusion hfp)
      | some p =>
        by_cases hid : d.id = id
        · exact Decidable.isTrue ⟨d, p, rfl, hid, hp⟩
        · exact Decidable.isFalse (by
            rintro ⟨d2, q, h, hdid, -⟩
            injection h with h1 h2
            subst h1
            exact hid hdid)

/-! ### Helper lemmas -/

theorem scan_match_eq_find (ne : EpisodeNoId) (l : List Episode) :
    scan_match ne l =
      (l.find? (fun e => decide (2 ≤ match_score ne e))).map
        (fun m => (m.id, needs_update ne m)) := by
  induction l with
  | nil => rfl
  | cons x xs ih =>
    by_cases h : 2 ≤ match_score ne x
    · simp [scan_match, h, List.find?_cons_of_pos]
    · rw [List.find?_cons_of_neg]
      · simp [scan_match, h, ih]
      · simpa using h

theorem get_episodes_scan_sorted (db : Db) (pid : Int) :
    ((get_episodes db pid true).reverse).Pairwise
      (fun a b => pd_gt a.pubdate b.pubdate = false) := by
  rw [List.pairwise_reverse]
  unfold get_episodes
  rw [List.pairwise_map]
  exact List.sorted_insertionSort rowGe _

theorem get_episodes_singleton (db : Db) (r : EpRow) (pid : Int)
    (hrows : db.episodes = [r]) (hpod : r.podId = pid) :
    get_episodes db pid true = [row_to_episode db r] := by
  simp [get_episodes, hrows, hpod, sort_pubdate_desc, List.insertionSort]

theorem update_episodes_one (db : Db) (pid : Int) (pt : String) (ne : EpisodeNoId) :
    (update_episodes db pid pt [ne]).2.updated =
      (match scan_match ne (get_episodes db pid true).reverse with
       | some idUpd => if idUpd.2 then [idUpd.1] else []
       | none => []) ∧
    (update_episodes db pid pt [ne]).2.added =
      (match scan_match ne (get_episodes db pid true).reverse with
       | some _ => []
       | none => [{ id := db.nextEpId, podId := pid, title := ne.title,
                    podTitle := pt, selected := false }]) := by
  unfold update_episodes merge_step
  cases h : scan_match ne (get_episodes db pid true).reverse with
  | none => simp [h, insert_episode]
  | some idUpd =>
    by_cases hu : idUpd.2
    · simp [h, hu]
    · simp [h, hu]

theorem needs_update_iff (ne : EpisodeNoId) (e : Episode) :
    needs_update ne e = true ↔
      ¬(ne.title = e.title ∧ ne.url = e.url ∧ ne.description = e.description ∧
        ne.duration = e.duration ∧ ne.pubdate.isSome = true ∧ e.pubdate.isSome = true) := by
  unfold needs_update pd_both
  constructor
  · intro h hc
    obtain ⟨h1, h2, h3, h4, h5, h6⟩ := hc
    rw [h1, h2, h3, h4] at h
    simp [h5, h6] at h
  · intro hc
    have hX : (ne.title == e.title && ne.url == e.url &&
        ne.description == e.description && ne.duration == e.duration &&
        (ne.pubdate.isSome && e.pubdate.isSome)) = false := by
      by_contra hX
      rw [Bool.not_eq_false] at hX
      simp only [Bool.and_eq_true, beq_iff_eq] at hX
      exact hc ⟨hX.1.1.1.1, hX.1.1.1.2, hX.1.1.2, hX.1.2, hX.2.1, hX.2.2⟩
    rw [hX]
    rfl

/-! ### Fixtures: concrete states used by counterexamples and witnesses -/

/-- An empty database (fresh `data.db`). -/
def empty_db : Db := { podcasts := [], episodes := [], files := [], nextPodId := 1, nextEpId := 1 }

def c1_row : EpRow :=
  { id := 7, podId := 1, title := "t", url := "u", description := none,
    pubdate := some 1, duration := none, played := false, hidden := false }

def c1_db : Db :=
  { podcasts := [{ id := 1, title := "pod", url := "purl" }],
    episodes := [c1_row], files := [], nextPodId := 2, nextEpId := 8 }

/-- A fetched episode identical to the stored `c1_row` except that its
publish timestamp moved from 1 to 2. -/
def c1_fetched : EpisodeNoId :=
  { title := "t", url := "u", description := none, pubdate := some 2, duration := none }

/-! ### C1 -/

/-- C1, counterexample. The claim says an update statement is issued for a
matched pair (score at least 2) if and only if one of title, URL,
description, duration, or publish timestamp differs, and in particular
that identical title and URL with a differing publish date is merged as an
update. On `c1_db` and `c1_fetched` the pair is matched at score 2 and the
publish timestamps differ, yet the merger issues no update statement (and
no insert): the source checks the `pd_match` presence flag, never publish
date equality, in its update condition. -/
theorem c1_counterexample :
    2 ≤ match_score c1_fetched (row_to_episode c1_db c1_row) ∧
    c1_fetched.pubdate ≠ (row_to_episode c1_db c1_row).pubdate ∧
    (update_episodes c1_db 1 "pod" [c1_fetched]).2.updated = [] ∧
    (update_episodes c1_db 1 "pod" [c1_fetched]).2.added = [] := by
  refine ⟨by decide, by decide, ?_, ?_⟩ <;> decide

/-- C1, amended. For a store holding exactly one episode row `r` that the
fetched episode `ne` matches (score at least 2), the Sync Merger issues an
update statement if and only if it is NOT the case that title, URL,
description and duration are all equal AND both sides carry a publish
timestamp: any difference among title, URL, description, duration flags an
update, a missing publish timestamp on either side always flags one, and a
differing publish timestamp alone never does. A matched episode is never
inserted. -/
theorem c1_amended (db : Db) (r : EpRow) (pid : Int) (pt : String)
    (ne : EpisodeNoId) (hrows : db.episodes = [r]) (hpod : r.podId = pid)
    (hscore : 2 ≤ match_score ne (row_to_episode db r)) :
    ((update_episodes db pid pt [ne]).2.updated = [r.id] ↔
      ¬(ne.title = r.title ∧ ne.url = r.url ∧ ne.description = r.description ∧
        ne.duration = r.duration ∧ ne.pubdate.isSome = true ∧
        r.pubdate.isSome = true)) ∧
    (update_episodes db pid pt [ne]).2.added = [] := by
  have hone := update_episodes_one db pid pt ne
  have hget := get_episodes_singleton db r pid hrows hpod
  have hscan : scan_match ne (get_episodes db pid true).reverse =
      some ((row_to_episode db r).id, needs_update ne (row_to_episode db r)) := by
    rw [hget]
    simp [scan_match, hscore]
  rw [hscan] at hone
  have hiff := needs_update_iff ne (row_to_episode db r)
  have hid : (row_to_episode db r).id = r.id := rfl
  have hupd : (update_episodes db pid pt [ne]).2.updated =
      if needs_update ne (row_to_episode db r) then [r.id] else [] := by
    rw [hone.1, hid]
  refine ⟨?_, by rw [hone.2]⟩
  by_cases hu : needs_update ne (row_to_episode db r) = true
  · rw [hupd, if_pos hu]
    simp only [true_iff, eq_self_iff_true]
    exact hiff.mp hu
  · have hp : ne.title = r.title ∧ ne.url = r.url ∧
        ne.description = r.description ∧ ne.duration = r.duration ∧
        ne.pubdate.isSome = true ∧ r.pubdate.isSome = true :=
      not_not.mp (fun hnp => hu (hiff.mpr hnp))
    rw [hupd, if_neg hu]
    constructor
    · intro hemp
      exact absurd hemp (by simp)
    · intro hnp
      exact absurd hp hnp

/-- C1, witness: the amended theorem applied to a concrete matched pair
whose description differs, which is flagged for an update. -/
theorem c1_amended_witness :
    (update_episodes c1_db 1 "pod"
        [{ title := "t", url := "u", description := some "d2",
           pubdate := some 1, duration := none }]).2.updated = [7] :=
  ((c1_amended c1_db c1_row 1 "pod"
      { title := "t", url := "u", description := some "d2",
        pubdate := some 1, duration := none }
      rfl rfl (by decide)).1).mpr (by decide)

/-! ### C3 -/

def c3_old : EpRow :=
  { id := 1, podId := 1, title := "t", url := "u", description := some "a",
    pubdate := some 5, duration := none, played := false, hidden := false }

def c3_new : EpRow :=
  { id := 2, podId := 1, title := "t", url := "u", description := some "a",
    pubdate := some 10, duration := none, played := false, hidden := false }

def c3_db : Db :=
  { podcasts := [{ id := 1, title := "pod", url := "purl" }],
    episodes := [c3_old, c3_new], files := [], nextPodId := 2, nextEpId := 3 }

def c3_fetched : EpisodeNoId :=
  { title := "t", url := "u", description := some "z", pubdate := some 99,
    duration := none }

/-- C3, counterexample. The claim says the stored episodes are scanned
newest-first, so that with several candidates above the threshold the most
recently stored one is matched. In `c3_db` the stored rows `c3_old`
(publish date 5, id 1) and `c3_new` (publish date 10, id 2, the newer and
more recently stored row) both reach score 2 against `c3_fetched`, yet the
merger matches and updates `c3_old`: the source iterates the newest-first
stored list with `.rev()`, i.e. oldest-first. -/
theorem c3_counterexample :
    2 ≤ match_score c3_fetched (row_to_episode c3_db c3_old) ∧
    2 ≤ match_score c3_fetched (row_to_episode c3_db c3_new) ∧
    pd_gt c3_new.pubdate c3_old.pubdate = true ∧
    c3_new.id ≠ c3_old.id ∧
    (update_episodes c3_db 1 "pod" [c3_fetched]).2.updated = [c3_old.id] := by
  refine ⟨by decide, by decide, by decide, by decide, ?_⟩
  decide

/-- C3, amended. The stored list handed to the Sync Merger is ordered
newest-first, but its scan iterates that list in reverse, i.e.
oldest-first: the scan list is ascending in publish date (conjunct 2), and
the scan returns exactly the first episode of that oldest-first list
reaching score 2 (conjunct 1) — so whenever more than one stored episode
reaches the threshold the OLDEST candidate wins, and at most one stored
episode (an `Option` result) is matched per fetched episode. -/
theorem c3_amended :
    (∀ (ne : EpisodeNoId) (l : List Episode),
      scan_match ne l =
        (l.find? (fun e => decide (2 ≤ match_score ne e))).map
          (fun m => (m.id, needs_update ne m))) ∧
    (∀ (db : Db) (pid : Int),
      ((get_episodes db pid true).reverse).Pairwise
        (fun a b => pd_gt a.pubdate b.pubdate = false)) :=
  ⟨scan_match_eq_find, get_episodes_scan_sorted⟩

/-! ### C7 -/

def c7_ep1 : Episode :=
  { id := 1, podId := 1, title := "e1", url := "u1", description := none,
    pubdate := some 2, duration := none, path := some "p1", played := false }

def c7_ep2 : Episode :=
  { id := 2, podId := 1, title := "e2", url := "u2", description := none,
    pubdate := some 1, duration := none, path := some "p2", played := false }

def c7_db : Db :=
  { podcasts := [{ id := 1, title := "pod", url := "purl" }],
    episodes :=
      [{ id := 1, podId := 1, title := "e1", url := "u1", description := none,
         pubdate := some 2, duration := none, played := false, hidden := false },
       { id := 2, podId := 1, title := "e2", url := "u2", description := none,
         pubdate := some 1, duration := none, played := false, hidden := false }],
    files := [{ episodeId := 1, path := "p1" }, { episodeId := 2, path := "p2" }],
    nextPodId := 2, nextEpId := 3 }

/-- Both episodes downloaded, both files present on disk. -/
def c7_state : AppState :=
  { db := c7_db,
    mem := [{ id := 1, title := "pod", episodes := [c7_ep1, c7_ep2] }],
    fs := ["p1", "p2"], syncCounter := 0, syncTracker := [],
    downloadTracker := ∅ }

def c7_db_one : Db :=
  { podcasts := [{ id := 1, title := "pod", url := "purl" }],
    episodes :=
      [{ id := 1, podId := 1, title := "e1", url := "u1", description := none,
         pubdate := some 2, duration := none, played := false, hidden := false }],
    files := [{ episodeId := 1, path := "p1" }],
    nextPodId := 2, nextEpId := 2 }

/-- One episode downloaded, its file present on disk. -/
def c7_state_one : AppState :=
  { db := c7_db_one,
    mem := [{ id := 1, title := "pod", episodes := [c7_ep1] }],
    fs := ["p1"], syncCounter := 0, syncTracker := [],
    downloadTracker := ∅ }

/-- C7, claim evaluated at the failing input. On `c7_state` the
delete-all-files handler successfully deletes both files from disk, and
the ids 1 and 2 of both episodes are handed to `remove_files` — yet not a
single `files` record is removed: the statement binds the joined text
(1, 2) to one placeholder, which equals no integer `episode_id`, and the
handler even reports success. A one-element batch (`c7_state_one`, same
shape) does remove its record, confirming that the defect is the batch
join and not the model. This contradicts both the claim and the source's
own doc comment on `remove_files` (removes all file listings for the
selected episode ids). -/
theorem c7_remove_files_bug :
    (delete_files c7_state 1).1.fs = [] ∧
    (delete_files c7_state 1).1.db.files =
      [{ episodeId := 1, path := "p1" }, { episodeId := 2, path := "p2" }] ∧
    (delete_files c7_state 1).2 = [Notif.filesDeleted] ∧
    (delete_files c7_state_one 1).1.fs = [] ∧
    (delete_files c7_state_one 1).1.db.files = [] := by
  refine ⟨?_, ?_, ?_, ?_, ?_⟩ <;> decide

/-! ### C8 -/

def c8_a : EpisodeNoId :=
  { title := "a", url := "ua", description := none, pubdate := some 30, duration := none }

def c8_b : EpisodeNoId :=
  { title := "b", url := "ub", description := none, pubdate := some 20, duration := none }

def c8_c : EpisodeNoId :=
  { title := "c", url := "uc", description := none, pubdate := some 10, duration := none }

/-- A never-before-seen podcast whose feed fetch carries 3 episodes, in
fetch order a, b, c. -/
def c8_pod : PodcastNoId := { title := "pod", url := "purl", episodes := [c8_a, c8_b, c8_c] }

/-- C8, counterexample. Inserting the fresh 3-episode podcast does perform
3 inserts and 0 updates, but the identifiers are assigned in REVERSE fetch
order: the first fetched episode (title a) receives id 3, the largest, and
the last fetched (title c) receives id 1 — the source iterates the fetched
list with `.rev()` when inserting. This refutes the claim's ascending
identifiers assigned in fetch order (first episode gets the smallest). -/
theorem c8_counterexample :
    (insert_podcast empty_db c8_pod).1.episodes.map (fun r => (r.id, r.title)) =
      [(1, "c"), (2, "b"), (3, "a")] ∧
    (insert_podcast empty_db c8_pod).2.added.length = 3 ∧
    (insert_podcast empty_db c8_pod).2.updated = [] := by
  refine ⟨?_, ?_, ?_⟩ <;> decide

/-- C8, amended. For any database state and any 3 fetched episodes
a, b, c, inserting the new podcast performs exactly 3 episode inserts
(appending exactly 3 rows, reporting 3 added and 0 updated), and the
ascending identifiers nextEpId, nextEpId+1, nextEpId+2 are assigned in
reverse fetch order: the LAST episode of the fetched list gets the
smallest identifier. -/
theorem c8_amended (db : Db) (t u : String) (a b c : EpisodeNoId) :
    (insert_podcast db { title := t, url := u, episodes := [a, b, c] }).1.episodes =
      db.episodes ++
        [new_row db.nextPodId db.nextEpId c,
         new_row db.nextPodId (db.nextEpId + 1) b,
         new_row db.nextPodId (db.nextEpId + 2) a] ∧
    (insert_podcast db { title := t, url := u, episodes := [a, b, c] }).2.added =
      [{ id := db.nextEpId, podId := db.nextPodId, title := c.title,
         podTitle := t, selected := false },
       { id := db.nextEpId + 1, podId := db.nextPodId, title := b.title,
         podTitle := t, selected := false },
       { id := db.nextEpId + 2, podId := db.nextPodId, title := a.title,
         podTitle := t, selected := false }] ∧
    (insert_podcast db { title := t, url := u, episodes := [a, b, c] }).2.updated = [] := by
  refine ⟨?_, ?_, ?_⟩ <;>
    simp [insert_podcast, insert_episode, List.append_assoc, add_assoc]

/-! ### C6 -/

def c6_row : EpRow :=
  { id := 10, podId := 1, title := "e", url := "u", description := none,
    pubdate := some 1, duration := none, played := false, hidden := false }

def c6_ep : Episode :=
  { id := 10, podId := 1, title := "e", url := "u", description := none,
    pubdate := some 1, duration := none, path := none, played := false }

def c6_db : Db :=
  { podcasts := [{ id := 1, title := "pod", url := "purl" }],
    episodes := [c6_row], files := [], nextPodId := 2, nextEpId := 11 }

def c6_state : AppState :=
  { db := c6_db, mem := [{ id := 1, title := "pod", episodes := [c6_ep] }],
    fs := [], syncCounter := 0, syncTracker := [], downloadTracker := ∅ }

/-- C6, counterexample. The claim says a failing set-played-status
persistence call inside the mark-played handler is converted into a
user-facing notification and aborts before the in-memory write. On
`c6_state` with the persistence call failing, the handler emits no
notification at all and still flips the in-memory played flag (the source
discards the call's result with `let _ = ...`); only the database is left
unchanged. -/
theorem c6_counterexample :
    (mark_played c6_state 1 10 true true).2 = [] ∧
    (mark_played c6_state 1 10 true true).1.mem ≠ c6_state.mem ∧
    (mark_played c6_state 1 10 true true).1.mem.map
        (fun p => p.episodes.map (fun e => e.played)) = [[true]] ∧
    (mark_played c6_state 1 10 true true).1.db = c6_state.db := by
  refine ⟨?_, ?_, ?_, ?_⟩ <;> decide

/-- C6, amended. The mark-played handler ignores the result of its
set-played-status persistence call: on failure no notification is emitted,
the database is left unchanged, and the in-memory write proceeds exactly
as on success — in particular the targeted episode's played flag is
flipped in the store regardless of the persistence outcome. -/
theorem c6_amended (st : AppState) (podId epId : Int) (played : Bool)
    (p : MemPodcast) (e : Episode) (hp : p ∈ st.mem) (hpid : p.id = podId)
    (he : e ∈ p.episodes) (heid : e.id = epId) :
    (mark_played st podId epId played true).2 = [] ∧
    (mark_played st podId epId played true).1.db = st.db ∧
    (mark_played st podId epId played true).1.mem =
      (mark_played st podId epId played false).1.mem ∧
    (∃ p2 ∈ (mark_played st podId epId played true).1.mem,
      p2.id = podId ∧ { e with played := played } ∈ p2.episodes) := by
  refine ⟨rfl, rfl, rfl, ?_⟩
  refine ⟨{ p with episodes :=
      p.episodes.map (fun q => if q.id == epId then { q with played := played } else q) },
    ?_, hpid, ?_⟩
  · show _ ∈ mem_replace_episode st.mem podId epId _
    unfold mem_replace_episode
    have : (p.id == podId) = true := by simpa using hpid
    refine List.mem_map.mpr ⟨p, hp, ?_⟩
    rw [this]
    simp
  · refine List.mem_map.mpr ⟨e, he, ?_⟩
    have : (e.id == epId) = true := by simpa using heid
    rw [this]
    simp

/-- C6, witness: the amended theorem applied to `c6_state`. -/
theorem c6_amended_witness :
    (mark_played c6_state 1 10 true true).2 = [] ∧
    (mark_played c6_state 1 10 true true).1.db = c6_state.db ∧
    (mark_played c6_state 1 10 true true).1.mem =
      (mark_played c6_state 1 10 true false).1.mem ∧
    (∃ p2 ∈ (mark_played c6_state 1 10 true true).1.mem,
      p2.id = 1 ∧ { c6_ep with played := true } ∈ p2.episodes) :=
  c6_amended c6_state 1 10 true
    { id := 1, title := "pod", episodes := [c6_ep] } c6_ep
    (by decide) rfl (by decide) rfl

/-! ### C9 -/

def c9_ep : Episode :=
  { id := 20, podId := 1, title := "e", url := "u", description := none,
    pubdate := some 1, duration := none, path := some "gone", played := false }

def c9_db : Db :=
  { podcasts := [{ id := 1, title := "pod", url := "purl" }],
    episodes := [{ id := 20, podId := 1, title := "e", url := "u",
                   description := none, pubdate := some 1, duration := none,
                   played := false, hidden := false }],
    files := [{ episodeId := 20, path := "gone" }], nextPodId := 2, nextEpId := 21 }

/-- Episode 20 has a recorded local file `gone` that is absent from the
filesystem. -/
def c9_state : AppState :=
  { db := c9_db, mem := [{ id := 1, title := "pod", episodes := [c9_ep] }],
    fs := [], syncCounter := 0, syncTracker := [], downloadTracker := ∅ }

/-- C9: removing an episode with delete-files=true while its recorded
local file is missing on disk emits the file-deletion error notification,
and the episode is nevertheless hidden in storage: every episodes row
with its id carries `hidden = true` afterwards, while the filesystem and
the files table are untouched by the failed deletion. -/
theorem c9_remove_episode (st : AppState) (podId epId : Int) (p : MemPodcast)
    (e : Episode) (pa : String)
    (hp : st.mem.find? (fun q => q.id == podId) = some p)
    (he : p.episodes.find? (fun q => q.id == epId) = some e)
    (hpath : e.path = some pa) (hfs : pa ∉ st.fs) :
    Notif.deleteError e.title ∈ (remove_episode st podId epId true).2 ∧
    (∀ r ∈ (remove_episode st podId epId true).1.db.episodes,
      r.id = epId → r.hidden = true) ∧
    (remove_episode st podId epId true).1.fs = st.fs ∧
    (remove_episode st podId epId true).1.db.files = st.db.files := by
  have hdf : delete_file st podId epId = (st, [Notif.deleteError e.title]) := by
    simp [delete_file, hp, he, hpath, hfs]
  have hre : remove_episode st podId epId true =
      ({ st with db := hide_episode st.db epId true,
                 mem := st.mem.map (fun q =>
                   if q.id == podId then
                     { q with episodes := get_episodes (hide_episode st.db epId true) podId false }
                   else q) },
        [Notif.deleteError e.title]) := by
    unfold remove_episode
    rw [if_pos rfl, hdf]
  refine ⟨by rw [hre]; simp, ?_, by rw [hre], by rw [hre]; rfl⟩
  rw [hre]
  intro r hr hrid
  unfold hide_episode at hr
  simp only at hr
  obtain ⟨r0, hr0, hfr⟩ := List.mem_map.mp hr
  by_cases hcase : (r0.id == epId) = true
  · rw [if_pos hcase] at hfr
    rw [← hfr]
  · rw [if_neg hcase] at hfr
    rw [← hfr] at hrid
    exact absurd (by simpa using hrid) hcase

/-- C9, witness: the theorem applied to `c9_state`, whose episode 20 has
recorded path `gone` missing from the (empty) filesystem. -/
theorem c9_remove_episode_witness :
    Notif.deleteError "e" ∈ (remove_episode c9_state 1 20 true).2 ∧
    (∀ r ∈ (remove_episode c9_state 1 20 true).1.db.episodes,
      r.id = 20 → r.hidden = true) ∧
    (remove_episode c9_state 1 20 true).1.fs = c9_state.fs ∧
    (remove_episode c9_state 1 20 true).1.db.files = c9_state.db.files :=
  c9_remove_episode c9_state 1 20
    { id := 1, title := "pod", episodes := [c9_ep] } c9_ep "gone"
    rfl rfl rfl (by decide)

/-! ### C10 -/

theorem download_cmd_dispatch_not_tracked (st : AppState) (podId : Int)
    (epId : Option Int) (dirOk : Bool) (d3 : EpData)
    (hd : d3 ∈ (download_cmd st podId epId dirOk).2.1) :
    d3.id ∉ st.downloadTracker := by
  unfold download_cmd at hd
  cases hm : st.mem.find? (fun p => p.id == podId) with
  | none => rw [hm] at hd; simp at hd
  | some p =>
    rw [hm] at hd
    simp only at hd
    by_cases hc : ((download_candidates p epId).filter
        (fun d => decide (d.id ∉ st.downloadTracker))).isEmpty = true
    · rw [if_pos hc] at hd
      simp at hd
    · rw [if_neg hc] at hd
      cases dirOk with
      | true =>
        simp only [if_true] at hd
        have := List.mem_filter.mp hd
        simpa using this.2
      | false => simp at hd

def c10_d : EpData :=
  { id := 5, podId := 1, title := "e", url := "u", pubdate := some 1,
    filePath := some "pp" }

def c10_state : AppState :=
  { db := { podcasts := [{ id := 1, title := "pod", url := "purl" }],
            episodes := [{ id := 5, podId := 1, title := "e", url := "u",
                           description := none, pubdate := some 1, duration := none,
                           played := false, hidden := false }],
            files := [], nextPodId := 2, nextEpId := 6 },
    mem := [{ id := 1, title := "pod",
              episodes := [{ id := 5, podId := 1, title := "e", url := "u",
                             description := none, pubdate := some 1, duration := none,
                             path := none, played := false }] }],
    fs := [], syncCounter := 0, syncTracker := [], downloadTracker := {5} }

/-- C10: when persisting a completed download's file path fails, the
handler returns with the whole state unchanged — no in-memory path
writeback and no tracking-set removal — emitting only the failure
notification; the aggregate downloads-complete notification is not
emitted by this or by any other episode's completion while the identifier
remains tracked, and no download command dispatched from this state can
target that identifier (its presence in the tracking set suppresses it). -/
theorem c10_download_complete_failure (st : AppState) (d : EpData) (p : String)
    (hfp : d.filePath = some p) (htr : d.id ∈ st.downloadTracker) :
    (download_complete st d true).1 = st ∧
    (download_complete st d true).2 = [Notif.fileDbError p] ∧
    Notif.downloadsComplete ∉ (download_complete st d true).2 ∧
    d.id ∈ (download_complete st d true).1.downloadTracker ∧
    (∀ d2 b2, d2.id ≠ d.id →
      Notif.downloadsComplete ∉ (download_complete st d2 b2).2) ∧
    (∀ podId epId dirOk d3, d3 ∈ (download_cmd st podId epId dirOk).2.1 →
      d3.id ≠ d.id) := by
  have hfail : download_complete st d true = (st, [Notif.fileDbError p]) := by
    simp [download_complete, hfp]
  refine ⟨by rw [hfail], by rw [hfail], by rw [hfail]; simp, by rw [hfail]; exact htr,
    ?_, ?_⟩
  · intro d2 b2 hne
    unfold download_complete
    cases hfp2 : d2.filePath with
    | none => simp
    | some q =>
      cases b2 with
      | true => simp
      | false =>
        simp only [Bool.false_eq_true, if_false]
        have hmem : d.id ∈ st.downloadTracker.erase d2.id :=
          Finset.mem_erase.mpr ⟨fun h => hne (h.symm), htr⟩
        rw [if_neg (Finset.ne_empty_of_mem hmem)]
        simp
  · intro podId epId dirOk d3 hd3 heq
    exact download_cmd_dispatch_not_tracked st podId epId dirOk d3 hd3 (heq ▸ htr)

/-- C10, witness: the theorem applied to `c10_state`, where episode 5's
completed download fails to persist. -/
theorem c10_download_complete_failure_witness :
    (download_complete c10_state c10_d true).1 = c10_state ∧
    (download_complete c10_state c10_d true).2 = [Notif.fileDbError "pp"] ∧
    Notif.downloadsComplete ∉ (download_complete c10_state c10_d true).2 ∧
    (5 : Int) ∈ (download_complete c10_state c10_d true).1.downloadTracker ∧
    (∀ d2 b2, d2.id ≠ (5 : Int) →
      Notif.downloadsComplete ∉ (download_complete c10_state d2 b2).2) ∧
    (∀ podId epId dirOk d3, d3 ∈ (download_cmd c10_state podId epId dirOk).2.1 →
      d3.id ≠ (5 : Int)) :=
  c10_download_complete_failure c10_state c10_d "pp" rfl (by decide)

/-! ### C5 -/

theorem mem_tracker_insert_all (x : Int) (ds : List EpData) (t : Finset Int) :
    x ∈ tracker_insert_all t ds ↔ x ∈ t ∨ ∃ d ∈ ds, d.id = x := by
  induction ds generalizing t with
  | nil => simp [tracker_insert_all]
  | cons d rest ih =>
    have hstep : tracker_insert_all t (d :: rest) =
        tracker_insert_all (insert d.id t) rest := rfl
    rw [hstep, ih]
    constructor
    · rintro (hx | hx)
      · rcases Finset.mem_insert.mp hx with h | h
        · exact Or.inr ⟨d, List.mem_cons_self d rest, h.symm⟩
        · exact Or.inl h
      · obtain ⟨d2, hd2, hdx⟩ := hx
        exact Or.inr ⟨d2, List.mem_cons_of_mem d hd2, hdx⟩
    · rintro (hx | hx)
      · exact Or.inl (Finset.mem_insert_of_mem hx)
      · obtain ⟨d2, hd2, hdx⟩ := hx
        rcases List.mem_cons.mp hd2 with h | h
        · rw [h] at hdx
          exact Or.inl (Finset.mem_insert.mpr (Or.inl hdx.symm))
        · exact Or.inr ⟨d2, h, hdx⟩

theorem download_cmd_spec (st : AppState) (podId : Int) (epId : Option Int)
    (p : MemPodcast) (hp : st.mem.find? (fun q => q.id == podId) = some p) :
    (download_cmd st podId epId true).2.1 =
      (download_candidates p epId).filter
        (fun d => decide (d.id ∉ st.downloadTracker)) ∧
    (download_cmd st podId epId true).1.downloadTracker =
      tracker_insert_all st.downloadTracker
        ((download_candidates p epId).filter
          (fun d => decide (d.id ∉ st.downloadTracker))) := by
  unfold download_cmd
  rw [hp]
  simp only
  by_cases hc : ((download_candidates p epId).filter
      (fun d => decide (d.id ∉ st.downloadTracker))).isEmpty = true
  · rw [if_pos hc]
    have hnil : (download_candidates p epId).filter
        (fun d => decide (d.id ∉ st.downloadTracker)) = [] := by
      simpa using hc
    rw [hnil]
    exact ⟨rfl, rfl⟩
  · rw [if_neg hc]
    exact ⟨rfl, rfl⟩

theorem dl_step_not_tracked {st : AppState} {e : DlEvent} {d : EpData}
    (hd : d ∈ (dl_step st e).2) : d.id ∉ st.downloadTracker := by
  cases e with
  | cmd podId epId dirOk =>
    exact download_cmd_dispatch_not_tracked st podId epId dirOk d hd
  | fin d2 b => simp [dl_step] at hd

theorem dl_step_cmd_eq (st : AppState) (podId : Int) (epId : Option Int)
    (dirOk : Bool) :
    dl_step st (DlEvent.cmd podId epId dirOk) =
      ((download_cmd st podId epId dirOk).1,
        (download_cmd st podId epId dirOk).2.1) := rfl

theorem dl_step_fin_eq (st : AppState) (d : EpData) (b : Bool) :
    dl_step st (DlEvent.fin d b) = ((download_complete st d b).1, []) := rfl

theorem dl_step_tracked_after {st : AppState} {e : DlEvent} {d : EpData}
    (hd : d ∈ (dl_step st e).2) : d.id ∈ (dl_step st e).1.downloadTracker := by
  cases e with
  | fin d2 b =>
    rw [dl_step_fin_eq] at hd
    simp at hd
  | cmd podId epId dirOk =>
    rw [dl_step_cmd_eq] at hd ⊢
    simp only at hd ⊢
    unfold download_cmd at hd ⊢
    cases hm : st.mem.find? (fun p => p.id == podId) with
    | none =>
      simp [hm] at hd
    | some p =>
      simp only [hm] at hd ⊢
      by_cases hc : ((download_candidates p epId).filter
          (fun q => decide (q.id ∉ st.downloadTracker))).isEmpty = true
      · rw [if_pos hc] at hd
        simp at hd
      · rw [if_neg hc] at hd ⊢
        cases dirOk with
        | false => simp at hd
        | true =>
          simp only [if_true] at hd ⊢
          exact (mem_tracker_insert_all d.id _ _).mpr (Or.inr ⟨d, hd, rfl⟩)

theorem dl_step_preserved {st : AppState} {e : DlEvent} {id : Int}
    (hin : id ∈ st.downloadTracker) (hnr : ¬ removes_id e id) :
    id ∈ (dl_step st e).1.downloadTracker := by
  cases e with
  | cmd podId epId dirOk =>
    rw [dl_step_cmd_eq]
    simp only
    unfold download_cmd
    cases hm : st.mem.find? (fun p => p.id == podId) with
    | none => simp only [hm]; exact hin
    | some p =>
      simp only [hm]
      by_cases hc : ((download_candidates p epId).filter
          (fun q => decide (q.id ∉ st.downloadTracker))).isEmpty = true
      · rw [if_pos hc]
        exact hin
      · rw [if_neg hc]
        cases dirOk with
        | false => exact hin
        | true =>
          simp only [if_true]
          exact (mem_tracker_insert_all id _ _).mpr (Or.inl hin)
  | fin d b =>
    rw [dl_step_fin_eq]
    simp only
    unfold download_complete
    cases hfp : d.filePath with
    | none => exact hin
    | some q =>
      cases b with
      | true => exact hin
      | false =>
        have hne : d.id ≠ id := fun h => hnr ⟨d, q, rfl, h, hfp⟩
        simp only
        exact Finset.mem_erase.mpr ⟨fun h => hne h.symm, hin⟩

theorem dl_run_preserved {id : Int} : ∀ (evs : List DlEvent) (st : AppState),
    id ∈ st.downloadTracker → (∀ e ∈ evs, ¬ removes_id e id) →
    id ∈ (dl_run st evs).downloadTracker
  | [], _, hin, _ => hin
  | e :: rest, st, hin, hnr =>
    dl_run_preserved rest _
      (dl_step_preserved hin (hnr e (List.mem_cons_self e rest)))
      (fun e2 he2 => hnr e2 (List.mem_cons_of_mem e he2))

/-- C5: (1) for every download command (with the podcast present and the
directory creatable), the dispatched jobs are exactly the candidate
episodes currently lacking a local path that are not already in the
download tracking set, every dispatched identifier is in the tracking set
once the handler returns (it is inserted before the dispatch call in the
source), and no dispatched identifier was in the set beforehand; and
(2) over any event sequence of the download subsystem, if the same
identifier is dispatched by two commands, some event strictly between them
removed it from the set (a successful completion for that identifier) —
an identifier in the set is never the target of a second dispatched job
until it is removed. -/
theorem c5_download_tracking :
    (∀ (st : AppState) (podId : Int) (epId : Option Int) (p : MemPodcast),
      st.mem.find? (fun q => q.id == podId) = some p →
      ((download_cmd st podId epId true).2.1 =
          (download_candidates p epId).filter
            (fun d => decide (d.id ∉ st.downloadTracker)) ∧
        (∀ d ∈ (download_cmd st podId epId true).2.1,
          d.id ∈ (download_cmd st podId epId true).1.downloadTracker) ∧
        (∀ d ∈ (download_cmd st podId epId true).2.1,
          d.id ∉ st.downloadTracker))) ∧
    (∀ (st : AppState) (e1 : DlEvent) (mid : List DlEvent) (e2 : DlEvent) (id : Int),
      (∃ d ∈ (dl_step st e1).2, d.id = id) →
      (∃ d ∈ (dl_step (dl_run (dl_step st e1).1 mid) e2).2, d.id = id) →
      (∃ e ∈ mid, removes_id e id)) := by
  constructor
  · intro st podId epId p hp
    have hspec := download_cmd_spec st podId epId p hp
    refine ⟨hspec.1, ?_, ?_⟩
    · intro d hd
      rw [hspec.2, ← hspec.1]
      exact (mem_tracker_insert_all d.id _ _).mpr (Or.inr ⟨d, hd, rfl⟩)
    · intro d hd
      exact download_cmd_dispatch_not_tracked st podId epId true d hd
  · intro st e1 mid e2 id h1 h2
    by_contra hnone
    push_neg at hnone
    obtain ⟨d1, hd1, hid1⟩ := h1
    have htr1 : id ∈ (dl_step st e1).1.downloadTracker :=
      hid1 ▸ dl_step_tracked_after hd1
    have htr2 : id ∈ (dl_run (dl_step st e1).1 mid).downloadTracker :=
      dl_run_preserved mid _ htr1 hnone
    obtain ⟨d2, hd2, hid2⟩ := h2
    exact (hid2 ▸ dl_step_not_tracked hd2) htr2

/-- Two podcasts: episode 5 of podcast 1 is undownloaded; podcast 2 holds
an episode record with the same bare identifier (the tracking set stores
bare identifiers, so a completion carrying podcast 2 frees identifier 5). -/
def c5_state : AppState :=
  { db := { podcasts := [{ id := 1, title := "pod", url := "purl" }],
            episodes := [{ id := 5, podId := 1, title := "e", url := "u",
                           description := none, pubdate := some 1, duration := none,
                           played := false, hidden := false }],
            files := [], nextPodId := 3, nextEpId := 6 },
    mem := [{ id := 1, title := "pod",
              episodes := [{ id := 5, podId := 1, title := "e", url := "u",
                             description := none, pubdate := some 1, duration := none,
                             path := none, played := false }] },
            { id := 2, title := "pod2",
              episodes := [{ id := 5, podId := 2, title := "e2", url := "u2",
                             description := none, pubdate := some 1, duration := none,
                             path := none, played := false }] }],
    fs := [], syncCounter := 0, syncTracker := [], downloadTracker := ∅ }

def c5_mid : List DlEvent :=
  [DlEvent.fin { id := 5, podId := 2, title := "e2", url := "u2",
                 pubdate := some 1, filePath := some "pp" } false]

/-- C5, witness: both parts applied at `c5_state`. Part 1 at the concrete
download command for podcast 1; part 2 at a trace where identifier 5 is
dispatched, removed by the successful completion in `c5_mid`, and
dispatched again — forcing the conclusion that `c5_mid` contains the
removing completion. -/
theorem c5_download_tracking_witness :
    ((download_cmd c5_state 1 none true).2.1 =
        (download_candidates
            { id := 1, title := "pod",
              episodes := [{ id := 5, podId := 1, title := "e", url := "u",
                             description := none, pubdate := some 1, duration := none,
                             path := none, played := false }] } none).filter
          (fun d => decide (d.id ∉ c5_state.downloadTracker)) ∧
      (∀ d ∈ (download_cmd c5_state 1 none true).2.1,
        d.id ∈ (download_cmd c5_state 1 none true).1.downloadTracker) ∧
      (∀ d ∈ (download_cmd c5_state 1 none true).2.1,
        d.id ∉ c5_state.downloadTracker)) ∧
    (∃ e ∈ c5_mid, removes_id e 5) :=
  ⟨c5_download_tracking.1 c5_state 1 none
      { id := 1, title := "pod",
        episodes := [{ id := 5, podId := 1, title := "e", url := "u",
                       description := none, pubdate := some 1, duration := none,
                       path := none, played := false }] } rfl,
    c5_download_tracking.2 c5_state (DlEvent.cmd 1 none true) c5_mid
      (DlEvent.cmd 1 none true) 5 (by decide) (by decide)⟩

/-! ### C4 -/

theorem sync_dispatch_counter (st : AppState) (feeds : List SyncFeed) :
    (sync_dispatch st feeds).1.syncCounter = st.syncCounter + feeds.length ∧
    (sync_dispatch st feeds).2 = feeds := by
  refine ⟨?_, rfl⟩
  show (feeds.foldl (fun s _ => { s with syncCounter := s.syncCounter + 1 }) st).syncCounter = _
  induction feeds generalizing st with
  | nil => simp
  | cons f rest ih =>
    rw [List.foldl_cons, ih]
    simp
    omega

theorem sync_feed_error_dec (st : AppState) (f : SyncFeed) :
    feed_error st (some f.title) =
      ({ st with syncCounter := st.syncCounter - 1 },
        [Notif.feedError (some f.title)]) := rfl

theorem add_or_sync_fail_eq (st : AppState) (pod : PodcastNoId) (pid : Int) :
    add_or_sync_data st pod (some pid) true =
      { st := st, notifs := [Notif.syncDbError pod.title], agg := none } := rfl

theorem add_or_sync_ok_zero (st : AppState) (pod : PodcastNoId) (pid : Int)
    (h : st.syncCounter = 1) :
    (add_or_sync_data st pod (some pid) false).st.syncCounter = 0 ∧
    (add_or_sync_data st pod (some pid) false).agg.toList.length = 1 := by
  unfold add_or_sync_data
  have hz : st.syncCounter - 1 = 0 := by omega
  simp only [Bool.false_eq_true, if_false, hz, if_pos]
  refine ⟨?_, ?_⟩ <;> trivial

theorem add_or_sync_ok_pos (st : AppState) (pod : PodcastNoId) (pid : Int)
    (h : st.syncCounter - 1 ≠ 0) :
    (add_or_sync_data st pod (some pid) false).st.syncCounter = st.syncCounter - 1 ∧
    (add_or_sync_data st pod (some pid) false).agg = none ∧
    (add_or_sync_data st pod (some pid) false).notifs = [] := by
  unfold add_or_sync_data
  simp only [Bool.false_eq_true, if_false, if_neg h]
  refine ⟨?_, ?_, ?_⟩ <;> trivial

theorem run_sync_batch_fold : ∀ (jobs : List (PodcastNoId × Int × Bool))
    (st : AppState) (ns : List Notif) (asg : List SyncAgg),
    jobs.foldl sync_batch_step (st, ns, asg) =
      ((run_sync_batch st jobs).1, ns ++ (run_sync_batch st jobs).2.1,
        asg ++ (run_sync_batch st jobs).2.2) := by
  intro jobs
  induction jobs with
  | nil =>
    intro st ns asg
    simp [run_sync_batch]
  | cons j rest ih =>
    intro st ns asg
    have hl : (j :: rest).foldl sync_batch_step (st, ns, asg) =
        rest.foldl sync_batch_step (sync_batch_step (st, ns, asg) j) :=
      List.foldl_cons _ _
    have hr : run_sync_batch st (j :: rest) =
        rest.foldl sync_batch_step (sync_batch_step (st, [], []) j) := rfl
    rw [hl, hr]
    show rest.foldl sync_batch_step
        ((add_or_sync_data st j.1 (some j.2.1) j.2.2).st,
          ns ++ (add_or_sync_data st j.1 (some j.2.1) j.2.2).notifs,
          asg ++ (add_or_sync_data st j.1 (some j.2.1) j.2.2).agg.toList) = _
    rw [ih, ih]
    simp [sync_batch_step]

theorem sync_batch_all_ok : ∀ (jobs : List (PodcastNoId × Int × Bool))
    (st : AppState), st.syncCounter = jobs.length → 1 ≤ jobs.length →
    (∀ j ∈ jobs, j.2.2 = false) →
    (run_sync_batch st jobs).1.syncCounter = 0 ∧
    (run_sync_batch st jobs).2.2.length = 1 := by
  intro jobs
  induction jobs with
  | nil =>
    intro st _ h1 _
    simp at h1
  | cons j rest ih =>
    intro st hc h1 hok
    have hj : j.2.2 = false := hok j (List.mem_cons_self j rest)
    have hstep : run_sync_batch st (j :: rest) =
        rest.foldl sync_batch_step
          ((add_or_sync_data st j.1 (some j.2.1) false).st,
            [] ++ (add_or_sync_data st j.1 (some j.2.1) false).notifs,
            [] ++ (add_or_sync_data st j.1 (some j.2.1) false).agg.toList) := by
      show rest.foldl sync_batch_step (sync_batch_step (st, [], []) j) = _
      unfold sync_batch_step
      rw [hj]
    cases rest with
    | nil =>
      have h1' : st.syncCounter = 1 := by simpa using hc
      have hz := add_or_sync_ok_zero st j.1 j.2.1 h1'
      rw [hstep]
      simpa using ⟨hz.1, hz.2⟩
    | cons j2 rest2 =>
      have hne : st.syncCounter - 1 ≠ 0 := by
        simp only [List.length_cons] at hc
        omega
      have hpos := add_or_sync_ok_pos st j.1 j.2.1 hne
      rw [hstep, run_sync_batch_fold]
      have hih := ih (add_or_sync_data st j.1 (some j.2.1) false).st
        (by
          rw [hpos.1, hc]
          simp)
        (by simp)
        (fun j3 hj3 => hok j3 (List.mem_cons_of_mem j hj3))
      refine ⟨hih.1, ?_⟩
      rw [hpos.2.1]
      simpa using hih.2

/-- An idle controller state with an empty store. -/
def c4_state : AppState :=
  { db := empty_db, mem := [], fs := [], syncCounter := 0, syncTracker := [],
    downloadTracker := ∅ }

def c4_state1 : AppState :=
  { db := empty_db, mem := [], fs := [], syncCounter := 1, syncTracker := [],
    downloadTracker := ∅ }

def c4_pod : PodcastNoId := { title := "pod", url := "purl", episodes := [] }

/-- The descriptor `sync` snapshots for the podcast of `c4_pod`. -/
def c4_feed : SyncFeed := { podId := 1, url := "purl", title := "pod" }

/-- C4, counterexample. The claim says the counter is decremented exactly
once on a job's completion or failure INCLUDING when the completion's
persistence write fails, so that the counter always returns to zero and
the batch aggregation runs exactly once. Dispatching one sync job from the
idle `c4_state` raises the counter to 1; processing its completion with
the persistence write failing leaves the counter at 1 — no decrement, no
aggregation, only the error notification — so the batch never finishes. -/
theorem c4_counterexample :
    (sync_dispatch c4_state [c4_feed]).1.syncCounter = 1 ∧
    (add_or_sync_data (sync_dispatch c4_state [c4_feed]).1
        c4_pod (some 1) true).st.syncCounter = 1 ∧
    (add_or_sync_data (sync_dispatch c4_state [c4_feed]).1
        c4_pod (some 1) true).agg = none ∧
    (add_or_sync_data (sync_dispatch c4_state [c4_feed]).1
        c4_pod (some 1) true).notifs = [Notif.syncDbError "pod"] := by
  refine ⟨?_, ?_, ?_, ?_⟩ <;> decide

/-- C4, amended. The sync counter is incremented exactly once per
dispatched sync job (conjunct 1); the feed-fetch failure of a dispatched
job — whose snapshotted descriptor always carries the podcast's title —
is processed by the error arm with exactly one decrement, the error
notification, and no other state change (conjunct 2); and a batch whose
completions all persist successfully drives the counter back to zero with
the batch-finished aggregation running exactly once (conjunct 3). But a
completion whose persistence write fails leaves the entire state — the
counter included — untouched and only emits an error notification
(conjunct 4), so such a batch never returns the counter to zero and never
reaches the aggregation. -/
theorem c4_amended :
    (∀ (st : AppState) (feeds : List SyncFeed),
      (sync_dispatch st feeds).1.syncCounter = st.syncCounter + feeds.length ∧
      (sync_dispatch st feeds).2 = feeds) ∧
    (∀ (st : AppState) (f : SyncFeed),
      feed_error st (some f.title) =
        ({ st with syncCounter := st.syncCounter - 1 },
          [Notif.feedError (some f.title)])) ∧
    (∀ (jobs : List (PodcastNoId × Int × Bool)) (st : AppState),
      st.syncCounter = jobs.length → 1 ≤ jobs.length →
      (∀ j ∈ jobs, j.2.2 = false) →
      (run_sync_batch st jobs).1.syncCounter = 0 ∧
      (run_sync_batch st jobs).2.2.length = 1) ∧
    (∀ (st : AppState) (pod : PodcastNoId) (pid : Int),
      add_or_sync_data st pod (some pid) true =
        { st := st, notifs := [Notif.syncDbError pod.title], agg := none }) :=
  ⟨sync_dispatch_counter, sync_feed_error_dec, sync_batch_all_ok, add_or_sync_fail_eq⟩

/-- C4, witness: the amended theorem at concrete inputs — a dispatch of
one job from `c4_state`, the failed feed fetch of that dispatched job
processed from `c4_state1`, a one-job batch with a successful completion
from `c4_state1`, and a failing completion. -/
theorem c4_amended_witness :
    ((sync_dispatch c4_state [c4_feed]).1.syncCounter =
        c4_state.syncCounter + [c4_feed].length ∧
      (sync_dispatch c4_state [c4_feed]).2 = [c4_feed]) ∧
    (feed_error c4_state1 (some c4_feed.title) =
      ({ c4_state1 with syncCounter := c4_state1.syncCounter - 1 },
        [Notif.feedError (some c4_feed.title)])) ∧
    ((run_sync_batch c4_state1 [(c4_pod, 1, false)]).1.syncCounter = 0 ∧
      (run_sync_batch c4_state1 [(c4_pod, 1, false)]).2.2.length = 1) ∧
    (add_or_sync_data c4_state c4_pod (some 1) true =
      { st := c4_state, notifs := [Notif.syncDbError "pod"], agg := none }) :=
  ⟨c4_amended.1 c4_state [c4_feed],
    c4_amended.2.1 c4_state1 c4_feed,
    c4_amended.2.2.1 [(c4_pod, 1, false)] c4_state1 rfl (by decide) (by decide),
    c4_amended.2.2.2 c4_state c4_pod 1⟩

/-! ### C2 -/

/-- The match score between two fetched-episode values (used to speak
about the fetched list itself, before any row exists). -/
def score_nn (a b : EpisodeNoId) : Int :=
  (if a.title = b.title then 1 else 0) + (if a.url = b.url then 1 else 0) +
    (match a.pubdate, b.pubdate with
     | some x, some y => if x = y then 1 else 0
     | _, _ => 0)

/-- The fetched-episode fields carried by an episodes row. -/
def fields_of (r : EpRow) : EpisodeNoId :=
  { title := r.title, url := r.url, description := r.description,
    pubdate := r.pubdate, duration := r.duration }

/-- The rows created by inserting the episodes `es` in order, with rowids
counting up from `n`. -/
def mk_rows (pid n : Int) : List EpisodeNoId → List EpRow
  | [] => []
  | e :: es => new_row pid n e :: mk_rows pid (n + 1) es

theorem fields_of_new_row (pid n : Int) (e : EpisodeNoId) :
    fields_of (new_row pid n e) = e := rfl

theorem match_score_row (db : Db) (f : EpisodeNoId) (r : EpRow) :
    match_score f (row_to_episode db r) = score_nn f (fields_of r) := rfl

theorem score_nn_self (f : EpisodeNoId) (h : f.pubdate.isSome = true) :
    score_nn f f = 3 := by
  unfold score_nn
  rcases hf : f.pubdate with _ | x
  · rw [hf] at h
    simp at h
  · simp [hf]

theorem needs_update_row (db : Db) (f : EpisodeNoId) (r : EpRow)
    (h : fields_of r = f) (hpd : f.pubdate.isSome = true) :
    needs_update f (row_to_episode db r) = false := by
  have ht : r.title = f.title := congrArg EpisodeNoId.title h
  have hu : r.url = f.url := congrArg EpisodeNoId.url h
  have hd : r.description = f.description := congrArg EpisodeNoId.description h
  have hp : r.pubdate = f.pubdate := congrArg EpisodeNoId.pubdate h
  have hdu : r.duration = f.duration := congrArg EpisodeNoId.duration h
  unfold needs_update pd_both row_to_episode
  simp [ht, hu, hd, hp, hdu, hpd]

theorem mk_rows_mem {pid : Int} :
    ∀ {es : List EpisodeNoId} {n : Int} {r : EpRow}, r ∈ mk_rows pid n es →
      fields_of r ∈ es ∧ r.podId = pid ∧ n ≤ r.id := by
  intro es
  induction es with
  | nil => intro n r h; simp [mk_rows] at h
  | cons e es ih =>
    intro n r h
    rcases List.mem_cons.mp h with h | h
    · rw [h]
      exact ⟨List.mem_cons_self _ _, rfl, le_refl _⟩
    · obtain ⟨h1, h2, h3⟩ := ih h
      exact ⟨List.mem_cons_of_mem e h1, h2, by omega⟩

theorem mk_rows_exists (pid : Int) :
    ∀ {es : List EpisodeNoId} {e : EpisodeNoId} (n : Int), e ∈ es →
      ∃ r ∈ mk_rows pid n es, fields_of r = e := by
  intro es
  induction es with
  | nil => intro e n h; simp at h
  | cons x xs ih =>
    intro e n h
    rcases List.mem_cons.mp h with h | h
    · exact ⟨new_row pid n x, List.mem_cons_self _ _, by rw [fields_of_new_row, h]⟩
    · obtain ⟨r, hr, hf⟩ := ih (n + 1) h
      exact ⟨r, List.mem_cons_of_mem _ hr, hf⟩

theorem mk_rows_fields_inj {pid : Int} :
    ∀ {es : List EpisodeNoId} {n : Int}, es.Nodup →
      ∀ {r1 r2 : EpRow}, r1 ∈ mk_rows pid n es → r2 ∈ mk_rows pid n es →
        fields_of r1 = fields_of r2 → r1 = r2 := by
  intro es
  induction es with
  | nil => intro n _ r1 r2 h1; simp [mk_rows] at h1
  | cons e es ih =>
    intro n hnd r1 r2 h1 h2 hf
    have hnd2 := List.nodup_cons.mp hnd
    rcases List.mem_cons.mp h1 with h1 | h1 <;> rcases List.mem_cons.mp h2 with h2 | h2
    · rw [h1, h2]
    · exfalso
      have hm := mk_rows_mem h2
      rw [h1, fields_of_new_row] at hf
      rw [← hf] at hm
      exact hnd2.1 hm.1
    · exfalso
      have hm := mk_rows_mem h1
      rw [h2, fields_of_new_row] at hf
      rw [hf] at hm
      exact hnd2.1 hm.1
    · exact ih hnd2.2 h1 h2 hf

theorem get_episodes_empty (db : Db) (pid : Int) (hdb : db.episodes = []) :
    get_episodes db pid true = [] := by
  simp [get_episodes, hdb, sort_pubdate_desc, List.insertionSort]

theorem merge_fold_empty_scan (pid : Int) (pt : String) :
    ∀ (ms : List EpisodeNoId) (db : Db) (acc2 : List NewEpisode × List Int),
      (ms.foldl (merge_step pid pt []) (db, acc2)).1 =
        { db with episodes := db.episodes ++ mk_rows pid db.nextEpId ms,
                  nextEpId := db.nextEpId + (ms.length : Int) } ∧
      (ms.foldl (merge_step pid pt []) (db, acc2)).2.2 = acc2.2 := by
  intro ms
  induction ms with
  | nil =>
    intro db acc2
    constructor
    · show db = _
      cases db
      simp [mk_rows]
    · rfl
  | cons m ms ih =>
    intro db acc2
    have hstep : merge_step pid pt [] (db, acc2) m =
        ((insert_episode db pid m).2,
          acc2.1 ++ [{ id := (insert_episode db pid m).1, podId := pid,
                       title := m.title, podTitle := pt, selected := false }],
          acc2.2) := rfl
    have hfold : (m :: ms).foldl (merge_step pid pt []) (db, acc2) =
        ms.foldl (merge_step pid pt []) (merge_step pid pt [] (db, acc2) m) :=
      List.foldl_cons _ _
    rw [hfold, hstep]
    obtain ⟨ih1, ih2⟩ := ih (insert_episode db pid m).2
      (acc2.1 ++ [{ id := (insert_episode db pid m).1, podId := pid,
                    title := m.title, podTitle := pt, selected := false }],
        acc2.2)
    refine ⟨?_, ih2⟩
    rw [ih1]
    cases db with
    | mk pods eps fls npid nid =>
      simp only [insert_episode, mk_rows, List.length_cons, Db.mk.injEq,
        List.append_assoc, List.singleton_append, and_true, true_and]
      push_cast
      omega

theorem run1_empty (pid : Int) (pt : String) (es : List EpisodeNoId) (db0 : Db)
    (hdb : db0.episodes = []) :
    (update_episodes db0 pid pt es).1 =
      { db0 with episodes := mk_rows pid db0.nextEpId es.reverse,
                 nextEpId := db0.nextEpId + (es.reverse.length : Int) } := by
  unfold update_episodes
  rw [get_episodes_empty db0 pid hdb]
  have h := merge_fold_empty_scan pid pt es.reverse db0 ([], [])
  show (List.foldl (merge_step pid pt []) (db0, [], []) es.reverse).1 = _
  rw [h.1, hdb]
  simp

theorem scan_unique (f : EpisodeNoId) :
    ∀ (l : List Episode) (m : Episode), m ∈ l → 2 ≤ match_score f m →
      (∀ e ∈ l, e ≠ m → match_score f e < 2) →
      scan_match f l = some (m.id, needs_update f m) := by
  intro l
  induction l with
  | nil => intro m hm; simp at hm
  | cons x xs ih =>
    intro m hm hsc hun
    by_cases hx : 2 ≤ match_score f x
    · have hxm : x = m := by
        by_contra hne
        have := hun x (List.mem_cons_self x xs) hne
        omega
      rw [hxm]
      simp [scan_match, hxm ▸ hx]
    · have hmxs : m ∈ xs := by
        rcases List.mem_cons.mp hm with h | h
        · exact absurd (h ▸ hsc) hx
        · exact h
      have hrec := ih m hmxs hsc (fun e he hne => hun e (List.mem_cons_of_mem x he) hne)
      simp [scan_match, hx, hrec]

theorem merge_fold_noop (pid : Int) (pt : String) (scanList : List Episode) :
    ∀ (ms : List EpisodeNoId) (acc : Db × List NewEpisode × List Int),
      (∀ ne ∈ ms, ∃ i, scan_match ne scanList = some (i, false)) →
      ms.foldl (merge_step pid pt scanList) acc = acc := by
  intro ms
  induction ms with
  | nil => intro acc _; rfl
  | cons m ms ih =>
    intro acc hall
    obtain ⟨i, hi⟩ := hall m (List.mem_cons_self m ms)
    have hstep : merge_step pid pt scanList acc m = acc := by
      unfold merge_step
      rw [hi]
      simp
    rw [List.foldl_cons, hstep]
    exact ih acc (fun ne hne => hall ne (List.mem_cons_of_mem m hne))

/-- C2, amended. Re-running the Sync Merger with the unchanged fetched
list against the store its own previous run produced yields zero inserts,
zero updates, and an unchanged database, PROVIDED the previous run started
from an empty episode store, every fetched episode carries a publish
timestamp, and the fetched list is duplicate-free with no two distinct
fetched episodes matching each other at score 2 or more. (The
counterexample shows both provisos are necessary: an episode without a
publish timestamp is flagged for an update on every re-run, and a later
fetched episode that overwrites the matched stored episode's identifying
fields can make the re-run insert a duplicate.) -/
theorem c2_amended (pid : Int) (pt : String) (es : List EpisodeNoId) (db0 : Db)
    (hdb : db0.episodes = [])
    (hpd : ∀ e ∈ es, e.pubdate.isSome = true)
    (hnd : es.Nodup)
    (hpair : ∀ e1 ∈ es, ∀ e2 ∈ es, e1 ≠ e2 → score_nn e1 e2 < 2) :
    (update_episodes (update_episodes db0 pid pt es).1 pid pt es).2.added = [] ∧
    (update_episodes (update_episodes db0 pid pt es).1 pid pt es).2.updated = [] ∧
    (update_episodes (update_episodes db0 pid pt es).1 pid pt es).1 =
      (update_episodes db0 pid pt es).1 := by
  have hrun1 := run1_empty pid pt es db0 hdb
  set db1 := (update_episodes db0 pid pt es).1 with hdb1
  set rows := mk_rows pid db0.nextEpId es.reverse with hrows
  have hep1 : db1.episodes = rows := by rw [hrun1]
  -- the stored list read by the second run
  set old2 := get_episodes db1 pid true with hold2
  have hfilter : db1.episodes.filter
      (fun r => r.podId == pid && (true || !r.hidden)) = rows := by
    rw [hep1]
    apply List.filter_eq_self.mpr
    intro r hr
    have := (mk_rows_mem (hrows ▸ hr)).2.1
    simp [this]
  have hmem_old2 : ∀ e : Episode, e ∈ old2 ↔
      ∃ r ∈ rows, row_to_episode db1 r = e := by
    intro e
    rw [hold2]
    unfold get_episodes sort_pubdate_desc
    rw [hfilter]
    constructor
    · intro h
      obtain ⟨r, hr, hre⟩ := List.mem_map.mp h
      exact ⟨r, (List.mem_insertionSort rowGe).mp hr, hre⟩
    · intro ⟨r, hr, hre⟩
      exact List.mem_map.mpr ⟨r, (List.mem_insertionSort rowGe).mpr hr, hre⟩
  -- every fetched episode scans to its own stored copy, with no update
  have hscan : ∀ f ∈ es, ∃ i, scan_match f old2.reverse = some (i, false) := by
    intro f hf
    obtain ⟨r, hr, hfr⟩ := mk_rows_exists pid db0.nextEpId
      (List.mem_reverse.mpr hf)
    have hm_mem : row_to_episode db1 r ∈ old2.reverse :=
      List.mem_reverse.mpr ((hmem_old2 _).mpr ⟨r, hrows ▸ hr, rfl⟩)
    have hm_score : 2 ≤ match_score f (row_to_episode db1 r) := by
      rw [match_score_row, hfr, score_nn_self f (hpd f hf)]
      omega
    have hm_unique : ∀ e ∈ old2.reverse, e ≠ row_to_episode db1 r →
        match_score f e < 2 := by
      intro e he hne
      obtain ⟨r2, hr2, hre2⟩ := (hmem_old2 e).mp (List.mem_reverse.mp he)
      have hg := mk_rows_mem (hrows ▸ hr2)
      by_cases hgf : fields_of r2 = f
      · exfalso
        apply hne
        rw [← hre2]
        have : r2 = r := mk_rows_fields_inj (List.nodup_reverse.mpr hnd)
          (hrows ▸ hr2) hr (by rw [hgf, hfr])
        rw [this]
      · rw [← hre2, match_score_row]
        exact hpair f hf (fields_of r2) (List.mem_reverse.mp hg.1)
          (fun h => hgf h.symm)
    have := scan_unique f old2.reverse (row_to_episode db1 r) hm_mem hm_score hm_unique
    rw [needs_update_row db1 f r hfr (hpd f hf)] at this
    exact ⟨(row_to_episode db1 r).id, this⟩
  have hnoop := merge_fold_noop pid pt old2.reverse es.reverse (db1, [], [])
    (fun ne hne => hscan ne (List.mem_reverse.mp hne))
  have hrun2 : update_episodes db1 pid pt es = (db1, { added := [], updated := [] }) := by
    show ((List.foldl (merge_step pid pt old2.reverse) (db1, [], []) es.reverse).1,
        ({ added := (List.foldl (merge_step pid pt old2.reverse) (db1, [], [])
              es.reverse).2.1,
           updated := (List.foldl (merge_step pid pt old2.reverse) (db1, [], [])
              es.reverse).2.2 } : SyncResult)) = (db1, { added := [], updated := [] })
    rw [hnoop]
  rw [hrun2]
  exact ⟨rfl, rfl, rfl⟩

def c2_db0 : Db :=
  { podcasts := [{ id := 1, title := "p", url := "pu" }], episodes := [],
    files := [], nextPodId := 2, nextEpId := 1 }

/-- A fetched episode without a publish timestamp. -/
def c2_f : EpisodeNoId :=
  { title := "t", url := "u", description := none, pubdate := none, duration := none }

def c2_dbM : Db :=
  { podcasts := [{ id := 1, title := "p", url := "pu" }],
    episodes := [{ id := 1, podId := 1, title := "t", url := "u",
                   description := some "x", pubdate := some 5, duration := none,
                   played := false, hidden := false }],
    files := [], nextPodId := 2, nextEpId := 2 }

/-- Agrees with the stored row on title and publish date (URL differs). -/
def c2_fF : EpisodeNoId :=
  { title := "t", url := "uf", description := some "x", pubdate := some 5,
    duration := none }

/-- Agrees with the stored row on URL and publish date (title differs). -/
def c2_fH : EpisodeNoId :=
  { title := "th", url := "u", description := some "y", pubdate := some 5,
    duration := none }

/-- C2, counterexample. Re-running the Sync Merger on its own output is
not free of writes: (1) a fetched episode without a publish timestamp is
matched on re-run (no duplicate insert) but flagged for an update every
time, because the merger's `pd_match` presence flag is false; (2) starting
from a store holding one row and fetching two episodes that each match it
at score 2, the later-processed one overwrites the row's identifying
fields, and the re-run then fails to match the other episode and INSERTS
it — a nonzero insert count on the second run. -/
theorem c2_counterexample :
    ((update_episodes (update_episodes c2_db0 1 "p" [c2_f]).1 1 "p"
        [c2_f]).2.updated ≠ [] ∧
      (update_episodes (update_episodes c2_db0 1 "p" [c2_f]).1 1 "p"
        [c2_f]).2.added = []) ∧
    (update_episodes (update_episodes c2_dbM 1 "p" [c2_fH, c2_fF]).1 1 "p"
        [c2_fH, c2_fF]).2.added.length = 1 := by
  refine ⟨⟨?_, ?_⟩, ?_⟩ <;> decide

/-- C2, witness: the amended theorem applied to a two-episode fetched list
with distinct titles, URLs and publish dates, synced twice from the empty
store. -/
theorem c2_amended_witness :
    (update_episodes (update_episodes c2_db0 1 "p"
        [{ title := "t", url := "u", description := none, pubdate := some 1,
           duration := none },
         { title := "s", url := "v", description := none, pubdate := some 2,
           duration := none }]).1 1 "p"
        [{ title := "t", url := "u", description := none, pubdate := some 1,
           duration := none },
         { title := "s", url := "v", description := none, pubdate := some 2,
           duration := none }]).2.added = [] ∧
    (update_episodes (update_episodes c2_db0 1 "p"
        [{ title := "t", url := "u", description := none, pubdate := some 1,
           duration := none },
         { title := "s", url := "v", description := none, pubdate := some 2,
           duration := none }]).1 1 "p"
        [{ title := "t", url := "u", description := none, pubdate := some 1,
           duration := none },
         { title := "s", url := "v", description := none, pubdate := some 2,
           duration := none }]).2.updated = [] ∧
    (update_episodes (update_episodes c2_db0 1 "p"
        [{ title := "t", url := "u", description := none, pubdate := some 1,
           duration := none },
         { title := "s", url := "v", description := none, pubdate := some 2,
           duration := none }]).1 1 "p"
        [{ title := "t", url := "u", description := none, pubdate := some 1,
           duration := none },
         { title := "s", url := "v", description := none, pubdate := some 2,
           duration := none }]).1 =
      (update_episodes c2_db0 1 "p"
        [{ title := "t", url := "u", description := none, pubdate := some 1,
           duration := none },
         { title := "s", url := "v", description := none, pubdate := some 2,
           duration := none }]).1 :=
  c2_amended 1 "p"
    [{ title := "t", url := "u", description := none, pubdate := some 1,
       duration := none },
     { title := "s", url := "v", description := none, pubdate := some 2,
       duration := none }] c2_db0
    rfl (by decide) (by decide) (by decide)

end Shellcaster
